import Mathlib

/-!
Shallow embedding of the `lambdaproxy` request-dispatch core.

The Go sources embedded here are `handler.go` (handler chain executor,
router, not-found fallback, event entrypoints) and the model file
(`response`, `Request`, `HTTPError`, `Context` with its response-setting
and binding operations).  Machine integers are modelled as `Int` (Go
status codes never overflow), Go maps used only for lookup are modelled
as association lists, and a Go map value that may be `nil` is modelled
as an `Option`.  Side effects (`log.Printf`) are outside the model; each
claim theorem is stated against these executable definitions.
-/

/-- Models the Go `response` struct (`statusCode`, `headers`, `body`).
`headers` is an `Option` so that a `nil` Go map (`none`) is
distinguishable from a present, possibly empty map (`some hs`). -/
structure Response where
  statusCode : Int
  headers : Option (List (String × String))
  body : String
  deriving DecidableEq, Repr

/-- Models the Go `Identity` struct of the inbound event. -/
structure Identity where
  apiKey : String
  userArn : String
  cognitoAuthenticationType : String
  caller : String
  userAgent : String
  user : String
  cognitoIdentityPoolID : String
  cognitoIdentityID : String
  cognitoAuthenticationProvider : String
  sourceIP : String
  accountID : String
  deriving DecidableEq, Repr

/-- Models the Go `RequestContext` struct of the inbound event. -/
structure RequestContext where
  resourceID : String
  apiID : String
  resourcePath : String
  httpMethod : String
  requestID : String
  accountID : String
  identity : Identity
  stage : String
  deriving DecidableEq, Repr

/-- Models the Go `Request` struct.  The string-keyed maps are
association lists; they are only ever read by key. -/
structure Request where
  requestContext : RequestContext
  httpMethod : String
  path : String
  resource : String
  headers : List (String × String)
  queryStringParameters : List (String × String)
  pathParameters : List (String × String)
  stageVariables : List (String × String)
  body : String
  deriving DecidableEq, Repr

/-- The two kinds of error value a handler can return, as discriminated
by the `err.(*HTTPError)` type switch in `execHandlerFuncs`:
`httpError` models a `*HTTPError{Code, Message}`, `otherError` models
any other non-nil `error` (carrying only its `Error()` text). -/
inductive HError where
  | httpError (code : Int) (message : String)
  | otherError (message : String)
  deriving DecidableEq, Repr

/-- Models the Go `Context`: the request plus the internal
`response` pointer (`none` = nil, nothing set yet). -/
structure Context where
  request : Request
  response : Option Response
  deriving DecidableEq, Repr

/-- A Go `HandlerFunc` mutates the shared `*Context` and returns an
`error`; in the pure model it maps a context to the updated context
together with the optional error. -/
abbrev Handler := Context → Context × Option HError

/-- Models `var EmptyHeaders = map[string]string{}`: the present, empty
header map. -/
def EmptyHeaders : List (String × String) := []

/-- Models `http.StatusNoContent`. -/
def statusNoContent : Int := 204

/-- Models `http.StatusNotFound`. -/
def statusNotFound : Int := 404

/-- Models `http.StatusInternalServerError`. -/
def statusInternalServerError : Int := 500

/-- Models `http.StatusText(http.StatusInternalServerError)`. -/
def statusTextInternalServerError : String := "Internal Server Error"

/-- Marshalable Go values passed as `interface{}` bodies to
`Context.status`; covers the primitive JSON payloads. -/
inductive JValue where
  | str (s : String)
  | num (n : Int)
  | jbool (b : Bool)
  | jnull
  deriving DecidableEq, Repr

/-- JSON string escaping as performed by `encoding/json` on the
characters that can appear in this development's inputs. -/
def jsonEscapeChar (c : Char) : String :=
  if c = '"' then "\\\""
  else if c = '\\' then "\\\\"
  else if c = '\n' then "\\n"
  else if c = '\r' then "\\r"
  else if c = '\t' then "\\t"
  else String.singleton c

/-- Models `json.Marshal` of a Go string: the quoted, escaped JSON string. -/
def jsonQuote (s : String) : String :=
  "\"" ++ String.join (s.data.map jsonEscapeChar) ++ "\""

/-- Models `json.Marshal` on the modelled payloads.  It never fails on these
values, matching `encoding/json` on strings/numbers/booleans/null. -/
def jsonMarshal : JValue → String
  | .str s => jsonQuote s
  | .num n => toString n
  | .jbool b => if b then "true" else "false"
  | .jnull => "null"

/-- Models `Context.status(status, body, headers)`: marshal the body to
JSON and install a fresh response on the context.  Marshalling cannot
fail on `JValue` payloads, so the returned error is always nil. -/
def Context.status (ctx : Context) (status : Int) (body : JValue)
    (headers : List (String × String)) : Context × Option HError :=
  ({ ctx with
     response := some ({ statusCode := status, headers := some headers,
                         body := jsonMarshal body }) },
   none)

/-- Models `Context.NoContent(status)`: `ctx.status(status, "", EmptyHeaders)`. -/
def Context.NoContent (ctx : Context) (status : Int) : Context × Option HError :=
  ctx.status status (JValue.str "") EmptyHeaders

/-- Models `Context.JSON(status, body)`: `ctx.status(status, body, EmptyHeaders)`. -/
def Context.JSON (ctx : Context) (status : Int) (body : JValue) : Context × Option HError :=
  ctx.status status body EmptyHeaders

/-- Models `Context.Continue()`: no mutation, nil error. -/
def Context.Continue (ctx : Context) : Context × Option HError := (ctx, none)

/-- Models `Context.QueryParam(n)`: Go map indexing returns the zero
value `""` for an absent key. -/
def Context.QueryParam (ctx : Context) (n : String) : String :=
  (ctx.request.queryStringParameters.lookup n).getD ""

/-- Models `Context.Param(n)`. -/
def Context.Param (ctx : Context) (n : String) : String :=
  (ctx.request.pathParameters.lookup n).getD ""

/-- Models `Context.StageVar(n)`. -/
def Context.StageVar (ctx : Context) (n : String) : String :=
  (ctx.request.stageVariables.lookup n).getD ""

/-- Models `Context.Header(n)`. -/
def Context.Header (ctx : Context) (n : String) : String :=
  (ctx.request.headers.lookup n).getD ""

/-- Models `Context.String(status, body)`:
`ctx.status(status, body, EmptyHeaders)`.  (Declared after the other
`Context` operations so that `String` in their signatures still denotes
the string type.) -/
def Context.String (ctx : Context) (status : Int) (body : String) : Context × Option HError :=
  ctx.status status (JValue.str body) EmptyHeaders

/-- Models `json.Unmarshal([]byte(ctx.Request.Body), m)` on a target
struct with string fields: the JSON text of the request body is
represented by its parsed object `bodyObj` (an association list) and
the target struct by the list of its (lowercased) field names; a field
absent from the body keeps the Go zero value `""`. -/
def unmarshalFields (fields : List String) (bodyObj : List (String × String)) :
    List (String × String) :=
  fields.map (fun f => (f, (bodyObj.lookup f).getD ""))

/-- Models `mergo.Map(m, ctx.Request.QueryStringParameters)`: default
(non-overwriting) mergo sets only those destination fields that still
hold the zero value `""`; a destination field with a non-empty value is
kept, and source keys matching no field are ignored. -/
def mergoMap (dst : List (String × String)) (src : List (String × String)) :
    List (String × String) :=
  dst.map (fun fv => if fv.2 = "" then (fv.1, (src.lookup fv.1).getD "") else fv)

/-- Models `Context.Bind(m)` on a string-fielded target shape: unmarshal
the body object into the fields, then mergo-merge the query parameters
onto the result.  Neither step can fail on this representation. -/
def bindShape (fields : List String) (bodyObj query : List (String × String)) :
    List (String × String) :=
  mergoMap (unmarshalFields fields bodyObj) query

/-- Models `execHandlerFuncs(resp, hctx, h...)`: run the handlers in
order; an `HTTPError` becomes a response from its code and message, any
other error becomes the generic internal-error response (the log call
is an effect outside the model), otherwise a non-nil context response
becomes the current candidate and the chain continues. -/
def execHandlerFuncs : Response → Context → List Handler → Response
  | resp, _, [] => resp
  | resp, hctx, hf :: rest =>
    match hf hctx with
    | (_, some (HError.httpError code message)) =>
      { statusCode := code, headers := some EmptyHeaders, body := message }
    | (_, some (HError.otherError _)) =>
      { statusCode := statusInternalServerError, headers := some EmptyHeaders,
        body := statusTextInternalServerError }
    | (hctx', none) =>
      match hctx'.response with
      | some r => execHandlerFuncs r hctx' rest
      | none => execHandlerFuncs resp hctx' rest

/-- The starting response built in `Handle` and `router.Serve`:
status no-content, empty body, empty (non-nil) headers. -/
def defaultResponse : Response :=
  { statusCode := statusNoContent, headers := some EmptyHeaders, body := "" }

/-- Models the closure passed to `apex.HandleFunc` in `Handle`: a
`none` event stands for a JSON envelope that failed to unmarshal
(yielding the fixed internal-error response), a `some req` event for a
successfully parsed request run through the executor. -/
def handleEvent (event : Option Request) (hs : List Handler) : Response :=
  match event with
  | none =>
    { statusCode := statusInternalServerError, headers := some EmptyHeaders,
      body := statusTextInternalServerError }
  | some req => execHandlerFuncs defaultResponse { request := req, response := none } hs

/-- Models the Go `Route` struct. -/
structure Route where
  httpMethod : String
  resourcePath : String
  handlerFuncs : List Handler

/-- Models `strings.TrimSpace`, character-wise on the string data. -/
def trimSpace (s : String) : String :=
  String.mk (((s.data.dropWhile Char.isWhitespace).reverse.dropWhile
    Char.isWhitespace).reverse)

/-- Models `strings.ToLower`, character-wise on the string data. -/
def strToLower (s : String) : String :=
  String.mk (s.data.map Char.toLower)

/-- Models `routeKey(method, path)`:
`strings.ToLower(fmt.Sprintf("%s:%s", TrimSpace(method), TrimSpace(path)))`. -/
def routeKey (method resourcePath : String) : String :=
  strToLower (trimSpace method ++ ":" ++ trimSpace resourcePath)

/-- Models the Go `router` struct: the route registry keyed by
`routeKey`, plus the not-found fallback handler. -/
structure Router where
  routes : List (String × Route)
  notFoundHandler : Handler

/-- Go map assignment `m[k] = v` on the association-list model:
replace the binding of `k` in place, or append it if absent. -/
def updateAssoc : List (String × Route) → String → Route → List (String × Route)
  | [], k, rt => [(k, rt)]
  | (k', rt') :: rest, k, rt =>
    if k' = k then (k, rt) :: rest else (k', rt') :: updateAssoc rest k rt

/-- Models `router.Add(method, resourcePath, h...)`. -/
def Router.add (r : Router) (method resourcePath : String) (h : List Handler) : Router :=
  { r with
    routes := updateAssoc r.routes (routeKey method resourcePath)
                ({ httpMethod := method, resourcePath := resourcePath,
                   handlerFuncs := h }) }

/-- Models `router.GET`. -/
def Router.GET (r : Router) (resourcePath : String) (h : List Handler) : Router :=
  r.add "get" resourcePath h

/-- Models `router.PUT`. -/
def Router.PUT (r : Router) (resourcePath : String) (h : List Handler) : Router :=
  r.add "put" resourcePath h

/-- Models `router.POST`. -/
def Router.POST (r : Router) (resourcePath : String) (h : List Handler) : Router :=
  r.add "post" resourcePath h

/-- Models `router.DELETE`. -/
def Router.DELETE (r : Router) (resourcePath : String) (h : List Handler) : Router :=
  r.add "delete" resourcePath h

/-- Models `router.HEAD`. -/
def Router.HEAD (r : Router) (resourcePath : String) (h : List Handler) : Router :=
  r.add "head" resourcePath h

/-- Models `router.SetNotFoundHandler(h)`. -/
def Router.SetNotFoundHandler (r : Router) (h : Handler) : Router :=
  { r with notFoundHandler := h }

/-- Models the default `notFoundHandler`: `json.Marshal` of the context
(which cannot fail on this data shape) and the `log.Printf` dump are
effects outside the model, after which it returns
`c.NoContent(http.StatusNotFound)`. -/
def notFoundHandler : Handler := fun c => c.NoContent statusNotFound

/-- Models `NewRouter()`. -/
def NewRouter : Router := { routes := [], notFoundHandler := notFoundHandler }

/-- Models the per-request body of `router.Serve`: look the request's
`routeKey` up in the registry; a missing route or one with zero
handlers runs the single not-found handler, otherwise the route's
handler sequence runs. -/
def Router.serveReq (r : Router) (req : Request) : Response :=
  match r.routes.lookup (routeKey req.httpMethod req.resource) with
  | none => execHandlerFuncs defaultResponse { request := req, response := none }
      [r.notFoundHandler]
  | some rt =>
    if rt.handlerFuncs.isEmpty then
      execHandlerFuncs defaultResponse { request := req, response := none }
        [r.notFoundHandler]
    else
      execHandlerFuncs defaultResponse { request := req, response := none }
        rt.handlerFuncs

/-- Models the closure passed to `apex.HandleFunc` in `router.Serve`,
with `none` standing for an envelope that failed to unmarshal. -/
def Router.serveEvent (r : Router) (event : Option Request) : Response :=
  match event with
  | none =>
    { statusCode := statusInternalServerError, headers := some EmptyHeaders,
      body := statusTextInternalServerError }
  | some req => r.serveReq req

/-- A handler that returns a nil error on every context (the Go API has
no way to observe which contexts occur, so this quantifies over all). -/
def NoError (h : Handler) : Prop := ∀ c, (h c).2 = none

/-- A handler that never clears an already-set context response.  Every
handler written against the exported Go API satisfies this: the
unexported `response` field can only be written through
`Context.status`, which always installs a non-nil response. -/
def KeepsResponse (h : Handler) : Prop :=
  ∀ c, c.response.isSome = true → ((h c).1).response.isSome = true

/-- The context produced by letting every handler of the chain act in
order (the state part of the loop in `execHandlerFuncs`). -/
def runChain (ctx : Context) (hs : List Handler) : Context :=
  hs.foldl (fun c h => (h c).1) ctx

/-- All-empty `Identity` fixture. -/
def emptyIdentity : Identity := ⟨"", "", "", "", "", "", "", "", "", "", ""⟩

/-- All-empty `RequestContext` fixture. -/
def emptyRequestContext : RequestContext := ⟨"", "", "", "", "", "", emptyIdentity, ""⟩

/-- A concrete parsed request for `get /items`. -/
def req0 : Request := ⟨emptyRequestContext, "get", "/items", "/items", [], [], [], [], ""⟩

/-- A concrete parsed request whose resource has no registered route. -/
def reqMiss : Request := ⟨emptyRequestContext, "get", "/nope", "/nope", [], [], [], [], ""⟩

/-- Handler fixture: sets a 200 response with string body `"a"`. -/
def setA : Handler := fun c => c.String 200 "a"

/-- Handler fixture: sets a 201 response with string body `"b"`. -/
def setB : Handler := fun c => c.String 201 "b"

/-- Handler fixture: fails with `HTTPError{404, "missing"}`. -/
def raise404 : Handler := fun c => (c, some (HError.httpError 404 "missing"))

/-- Handler fixture: fails with a plain internal error. -/
def raiseBoom : Handler := fun c => (c, some (HError.otherError "boom"))

/-- A context whose response, when set, has a present (non-nil) header
map.  Initially the response is unset, so every fresh context
satisfies this. -/
def CtxHeadersOk (c : Context) : Prop :=
  ∀ r, c.response = some r → r.headers.isSome = true

/-- A handler that keeps `CtxHeadersOk` invariant.  Every handler
written against the exported Go API satisfies this, because the only
way to install a response is `Context.status`, which always stores a
non-nil header map. -/
def PreservesHeaders (h : Handler) : Prop :=
  ∀ c, CtxHeadersOk c → CtxHeadersOk (h c).1

/-- The field value `Context.Bind` actually produces: the body-derived
value when it is non-empty, otherwise the query value (default `""`). -/
def bindField (bodyObj query : List (String × String)) (f : String) : String :=
  if (bodyObj.lookup f).getD "" = "" then (query.lookup f).getD ""
  else (bodyObj.lookup f).getD ""

/-- The executor leaves the chain state unchanged on an empty chain. -/
theorem runChain_nil (ctx : Context) : runChain ctx [] = ctx := rfl

/-- One step of the chain state. -/
theorem runChain_cons (ctx : Context) (h : Handler) (t : List Handler) :
    runChain ctx (h :: t) = runChain (h ctx).1 t := rfl

/-- A chain of response-keeping handlers never loses a set response. -/
theorem keeps_runChain (hs : List Handler) :
    ∀ ctx : Context, (∀ h ∈ hs, KeepsResponse h) → ctx.response.isSome = true →
      (runChain ctx hs).response.isSome = true := by
  induction hs with
  | nil => intro ctx _ hsome; exact hsome
  | cons h t ih =>
    intro ctx hk hsome
    rw [runChain_cons]
    exact ih _ (fun h' hm => hk h' (List.mem_cons_of_mem _ hm))
      (hk h (List.mem_cons_self _ _) ctx hsome)

/-- On an error-free chain of response-keeping handlers the executor
applies every handler in order and returns the response carried by the
final context, falling back to the starting response when the invariant
ties them together. -/
theorem exec_noError (hs : List Handler) :
    ∀ (resp : Response) (ctx : Context),
      (∀ h ∈ hs, NoError h) → (∀ h ∈ hs, KeepsResponse h) →
      (∀ r, ctx.response = some r → resp = r) →
      execHandlerFuncs resp ctx hs = ((runChain ctx hs).response).getD resp := by
  induction hs with
  | nil =>
    intro resp ctx _ _ hinv
    cases hR : ctx.response with
    | none => simp [execHandlerFuncs, runChain, hR]
    | some r => simp [execHandlerFuncs, runChain, hR, hinv r hR]
  | cons h t ih =>
    intro resp ctx hne hk hinv
    have hh : (h ctx).2 = none := hne h (List.mem_cons_self _ _) ctx
    rcases hhc : h ctx with ⟨ctx', err⟩
    rw [hhc] at hh
    simp only at hh
    subst hh
    have hne' : ∀ h' ∈ t, NoError h' := fun h' hm => hne h' (List.mem_cons_of_mem _ hm)
    have hk' : ∀ h' ∈ t, KeepsResponse h' := fun h' hm => hk h' (List.mem_cons_of_mem _ hm)
    have hrc : runChain ctx (h :: t) = runChain ctx' t := by
      rw [runChain_cons, hhc]
    simp only [execHandlerFuncs, hhc, hrc]
    cases hr : ctx'.response with
    | some r =>
      show execHandlerFuncs r ctx' t = ((runChain ctx' t).response).getD resp
      have hres := ih r ctx' hne' hk'
        (fun r' hr' => by rw [hr] at hr'; exact Option.some.inj hr')
      rw [hres]
      cases hfin : (runChain ctx' t).response with
      | some v => rfl
      | none =>
        have hsome : (runChain ctx' t).response.isSome = true :=
          keeps_runChain t ctx' hk' (by rw [hr]; rfl)
        rw [hfin] at hsome
        exact Bool.noConfusion hsome
    | none =>
      show execHandlerFuncs resp ctx' t = ((runChain ctx' t).response).getD resp
      exact ih resp ctx' hne' hk'
        (fun r' hr' => by rw [hr] at hr'; exact Option.noConfusion hr')

/-- C1: on a handler chain in which every handler returns no error (and,
as the Go API guarantees, no handler can clear an already-set response),
the executor applies every handler in order — setting a response does
not terminate the chain — and returns the response carried by the final
context (the last one set), or the original default no-content response
when no handler ever set one. -/
theorem exec_runs_all_handlers_last_response_wins (req : Request) (hs : List Handler)
    (hne : ∀ h ∈ hs, NoError h) (hk : ∀ h ∈ hs, KeepsResponse h) :
    handleEvent (some req) hs =
      ((runChain ({ request := req, response := none }) hs).response).getD
        defaultResponse := by
  show execHandlerFuncs defaultResponse ({ request := req, response := none }) hs = _
  exact exec_noError hs defaultResponse ({ request := req, response := none }) hne hk
    (fun r hr => Option.noConfusion hr)

/-- C1 witness: a chain where handler 1 sets a 200 response and handler
2 sets a 201 response runs both and ends with handler 2's response. -/
theorem exec_runs_all_handlers_last_response_wins_witness :
    handleEvent (some req0) [setA, setB] =
      ({ statusCode := 201, headers := some EmptyHeaders, body := "\"b\"" }) := by
  have h := exec_runs_all_handlers_last_response_wins req0 [setA, setB]
    (by
      intro h hm
      rcases List.mem_cons.mp hm with rfl | hm
      · intro c; rfl
      · rcases List.mem_cons.mp hm with rfl | hm
        · intro c; rfl
        · exact absurd hm (List.not_mem_nil _))
    (by
      intro h hm
      rcases List.mem_cons.mp hm with rfl | hm
      · intro c hc; rfl
      · rcases List.mem_cons.mp hm with rfl | hm
        · intro c hc; rfl
        · exact absurd hm (List.not_mem_nil _))
  rw [h]
  decide

/-- C2: if the handlers before `h` return no error and `h` returns an
`HTTPError`, the executor's result is the response built from that
error's code and message with empty headers, whatever handlers follow
`h` — they are never invoked. -/
theorem exec_httpError_short_circuits (pre : List Handler) :
    ∀ (post : List Handler) (h : Handler) (resp : Response) (ctx : Context)
      (code : Int) (message : String),
      (∀ h' ∈ pre, NoError h') →
      (h (runChain ctx pre)).2 = some (HError.httpError code message) →
      execHandlerFuncs resp ctx (pre ++ h :: post) =
        ({ statusCode := code, headers := some EmptyHeaders, body := message }) := by
  induction pre with
  | nil =>
    intro post h resp ctx code message _ hh
    rw [runChain_nil] at hh
    rcases hhc : h ctx with ⟨ctx', err⟩
    rw [hhc] at hh
    simp only at hh
    subst hh
    simp [execHandlerFuncs, hhc]
  | cons p t ih =>
    intro post h resp ctx code message hne hh
    have hp : (p ctx).2 = none := hne p (List.mem_cons_self _ _) ctx
    rcases hpc : p ctx with ⟨ctx', err⟩
    rw [hpc] at hp
    simp only at hp
    subst hp
    have hh' : (h (runChain ctx' t)).2 = some (HError.httpError code message) := by
      rw [runChain_cons, hpc] at hh
      exact hh
    have hne' : ∀ h' ∈ t, NoError h' := fun h' hm => hne h' (List.mem_cons_of_mem _ hm)
    simp only [List.cons_append, execHandlerFuncs, hpc]
    cases hr : ctx'.response with
    | some r =>
      show execHandlerFuncs r ctx' (t ++ h :: post) = _
      exact ih post h r ctx' code message hne' hh'
    | none =>
      show execHandlerFuncs resp ctx' (t ++ h :: post) = _
      exact ih post h resp ctx' code message hne' hh'

/-- C2 witness: handler 1 sets a response, handler 2 raises
`HTTPError{404, "missing"}`, handler 3 would set a response but never
runs; output is status 404 with body `"missing"`. -/
theorem exec_httpError_short_circuits_witness :
    execHandlerFuncs defaultResponse ({ request := req0, response := none })
        [setA, raise404, setB] =
      ({ statusCode := 404, headers := some EmptyHeaders, body := "missing" }) :=
  exec_httpError_short_circuits [setA] [setB] raise404 defaultResponse
    ({ request := req0, response := none }) 404 "missing"
    (by
      intro h' hm
      rcases List.mem_cons.mp hm with rfl | hm
      · intro c; rfl
      · exact absurd hm (List.not_mem_nil _))
    rfl

/-- C5: if the handlers before `h` return no error and `h` returns a
non-HTTPError error, the executor's result is the fixed generic
internal-error response (status 500, generic body, empty headers),
identical for every error message, and handlers after `h` never run. -/
theorem exec_internal_error_short_circuits (pre : List Handler) :
    ∀ (post : List Handler) (h : Handler) (resp : Response) (ctx : Context)
      (message : String),
      (∀ h' ∈ pre, NoError h') →
      (h (runChain ctx pre)).2 = some (HError.otherError message) →
      execHandlerFuncs resp ctx (pre ++ h :: post) =
        ({ statusCode := statusInternalServerError, headers := some EmptyHeaders,
           body := statusTextInternalServerError }) := by
  induction pre with
  | nil =>
    intro post h resp ctx message _ hh
    rw [runChain_nil] at hh
    rcases hhc : h ctx with ⟨ctx', err⟩
    rw [hhc] at hh
    simp only at hh
    subst hh
    simp [execHandlerFuncs, hhc]
  | cons p t ih =>
    intro post h resp ctx message hne hh
    have hp : (p ctx).2 = none := hne p (List.mem_cons_self _ _) ctx
    rcases hpc : p ctx with ⟨ctx', err⟩
    rw [hpc] at hp
    simp only at hp
    subst hp
    have hh' : (h (runChain ctx' t)).2 = some (HError.otherError message) := by
      rw [runChain_cons, hpc] at hh
      exact hh
    have hne' : ∀ h' ∈ t, NoError h' := fun h' hm => hne h' (List.mem_cons_of_mem _ hm)
    simp only [List.cons_append, execHandlerFuncs, hpc]
    cases hr : ctx'.response with
    | some r =>
      show execHandlerFuncs r ctx' (t ++ h :: post) = _
      exact ih post h r ctx' message hne' hh'
    | none =>
      show execHandlerFuncs resp ctx' (t ++ h :: post) = _
      exact ih post h resp ctx' message hne' hh'

/-- C5 witness: a chain whose first handler fails with a plain error
yields the fixed internal-error response; the later handler never runs
and the error text `"boom"` does not appear in the output. -/
theorem exec_internal_error_short_circuits_witness :
    execHandlerFuncs defaultResponse ({ request := req0, response := none })
        [raiseBoom, setB] =
      ({ statusCode := statusInternalServerError, headers := some EmptyHeaders,
         body := statusTextInternalServerError }) :=
  exec_internal_error_short_circuits [] [setB] raiseBoom defaultResponse
    ({ request := req0, response := none }) "boom"
    (fun _ hm => absurd hm (List.not_mem_nil _))
    rfl

/-- Looking a key up in a keyed map over `fields` returns the mapped
value exactly for members of `fields`. -/
theorem lookup_map_keys (g : String → String) (fields : List String) (x : String) :
    ((fields.map (fun f => (f, g f))).lookup x) =
      if x ∈ fields then some (g x) else none := by
  induction fields with
  | nil => simp
  | cons a t ih =>
    by_cases h : a = x
    · subst h
      simp [List.lookup]
    · have hba : (x == a) = false := beq_eq_false_iff_ne.mpr (fun hx => h hx.symm)
      have hor : (x = a ∨ x ∈ t) ↔ x ∈ t := or_iff_right (fun hx => h hx.symm)
      simp only [List.map_cons, List.lookup, hba, ih, List.mem_cons, hor]

/-- The function `bindShape` computed field-wise: each field of the target shape maps
to `bindField`. -/
theorem bindShape_eq_map (fields : List String) (bodyObj query : List (String × String)) :
    bindShape fields bodyObj query =
      fields.map (fun f => (f, bindField bodyObj query f)) := by
  unfold bindShape mergoMap unmarshalFields
  rw [List.map_map]
  have hfun : ((fun fv : String × String =>
        if fv.2 = "" then (fv.1, (query.lookup fv.1).getD "") else fv) ∘
      (fun f => (f, (bodyObj.lookup f).getD ""))) =
      fun f => (f, bindField bodyObj query f) := by
    funext f
    by_cases h : (bodyObj.lookup f).getD "" = "" <;>
      simp [Function.comp, bindField, h]
  rw [hfun]

/-- C3 counterexample: for the one-field shape `["a"]`, a body value
`"bodyv"` and a query value `"queryv"` under the same key, `bind` keeps
the body-derived value — the query parameter does not win. -/
theorem bindShape_query_wins_counterexample :
    (bindShape ["a"] [("a", "bodyv")] [("a", "queryv")]).lookup "a" = some "bodyv"
      ∧ ¬ (bindShape ["a"] [("a", "bodyv")] [("a", "queryv")]).lookup "a"
            = some "queryv" := by
  decide

/-- C3 amended: `bind` deserializes the body into the target shape and
then overlays query parameters only onto fields whose body-derived
value is empty (the Go zero value): for keys present in both with a
non-empty body value the body's value is kept, keys only in the body
keep their value, and fields the body left empty take the query value
(so keys only in the query are present in the final value). -/
theorem bindShape_body_wins_query_fills_empty (fields : List String)
    (bodyObj query : List (String × String)) (f : String) (hf : f ∈ fields) :
    (bindShape fields bodyObj query).lookup f = some (bindField bodyObj query f) := by
  rw [bindShape_eq_map, lookup_map_keys, if_pos hf]

/-- C3 witness: on shape `["a", "b"]` with body `a := "x"` and query
`b := "y", a := "z"`, the body-only key keeps `"x"`, and the
query-only field gets `"y"`. -/
theorem bindShape_body_wins_query_fills_empty_witness :
    (("b" : String) ∈ ["a", "b"])
      ∧ (bindShape ["a", "b"] [("a", "x")] [("b", "y"), ("a", "z")]).lookup "b"
          = some "y"
      ∧ (bindShape ["a", "b"] [("a", "x")] [("b", "y"), ("a", "z")]).lookup "a"
          = some "x" := by
  refine ⟨by decide, ?_, ?_⟩
  · rw [bindShape_body_wins_query_fills_empty ["a", "b"] [("a", "x")]
      [("b", "y"), ("a", "z")] "b" (by decide)]
    decide
  · rw [bindShape_body_wins_query_fills_empty ["a", "b"] [("a", "x")]
      [("b", "y"), ("a", "z")] "a" (by decide)]
    decide

/-- C4: the code runs every body through `json.Marshal`, so
`String(200, "hello")` stores the JSON-quoted body `"hello"` including
the quote characters, and `NoContent(204)` stores the two-character
body consisting of two quotes rather than an empty body; headers are
empty and present in both cases. -/
theorem context_string_noContent_json_encode_bodies :
    (Context.String ({ request := req0, response := none }) 200 "hello").1.response
        = some ({ statusCode := 200, headers := some EmptyHeaders, body := "\"hello\"" })
      ∧ (Context.NoContent ({ request := req0, response := none }) 204).1.response
        = some ({ statusCode := 204, headers := some EmptyHeaders, body := "\"\"" })
      ∧ ("\"hello\"" : String) ≠ "hello"
      ∧ ("\"\"" : String) ≠ "" := by
  decide

/-- C6: dispatching a request with no registered route through a router
that keeps the default not-found handler yields status 404 with empty
present headers, but the body is the JSON encoding of the empty string
(two quote characters), not the empty string. -/
theorem default_not_found_response_body_json_encoded :
    NewRouter.serveReq reqMiss
        = ({ statusCode := statusNotFound, headers := some EmptyHeaders, body := "\"\"" })
      ∧ ("\"\"" : String) ≠ "" := by
  decide

/-- Character-wise lowering distributes over string append. -/
theorem strToLower_append (s t : String) :
    strToLower (s ++ t) = strToLower s ++ strToLower t := by
  cases s with
  | mk a =>
    cases t with
    | mk b =>
      show String.mk ((a ++ b).map Char.toLower)
          = String.mk (a.map Char.toLower) ++ String.mk (b.map Char.toLower)
      rw [List.map_append]
      rfl

/-- Two (method, path) pairs that agree after trimming edge whitespace
and lowercasing produce the same route key. -/
theorem routeKey_eq_of_normalized (m p m' p' : String)
    (hm : strToLower (trimSpace m') = strToLower (trimSpace m))
    (hp : strToLower (trimSpace p') = strToLower (trimSpace p)) :
    routeKey m' p' = routeKey m p := by
  unfold routeKey
  simp only [strToLower_append, hm, hp]

/-- Map assignment followed by lookup of the same key finds the
assigned value. -/
theorem lookup_updateAssoc_self (rs : List (String × Route)) (k : String) (rt : Route) :
    (updateAssoc rs k rt).lookup k = some rt := by
  induction rs with
  | nil => simp [updateAssoc, List.lookup]
  | cons kv rest ih =>
    rcases kv with ⟨k', rt'⟩
    by_cases h : k' = k
    · subst h
      simp [updateAssoc, List.lookup]
    · have hba : (k == k') = false := beq_eq_false_iff_ne.mpr (fun hx => h hx.symm)
      simp [updateAssoc, h, List.lookup, hba, ih]

/-- C7: after registering `(m, p, hs)`, looking up the key computed
from any method `m'` and path `p'` that differ from `m` and `p` only in
letter case and leading/trailing whitespace finds that same route. -/
theorem add_then_normalized_lookup_matches (r : Router) (m p : String) (hs : List Handler)
    (m' p' : String)
    (hm : strToLower (trimSpace m') = strToLower (trimSpace m))
    (hp : strToLower (trimSpace p') = strToLower (trimSpace p)) :
    ((r.add m p hs).routes).lookup (routeKey m' p') =
      some ({ httpMethod := m, resourcePath := p, handlerFuncs := hs }) := by
  rw [routeKey_eq_of_normalized m p m' p' hm hp]
  exact lookup_updateAssoc_self r.routes (routeKey m p) _

/-- C7 witness: registering `"GET"` with path `" /items "` and looking
up with `"get"` and `"/items"` finds the registered route. -/
theorem add_then_normalized_lookup_matches_witness :
    ((NewRouter.add "GET" " /items " [setA]).routes).lookup (routeKey "get" "/items") =
      some ({ httpMethod := "GET", resourcePath := " /items ",
              handlerFuncs := [setA] }) :=
  add_then_normalized_lookup_matches NewRouter "GET" " /items " [setA] "get" "/items"
    (by decide) (by decide)

/-- Re-assigning the same key replaces the earlier assignment entirely. -/
theorem updateAssoc_self_overwrite (rs : List (String × Route)) (k : String)
    (v v' : Route) :
    updateAssoc (updateAssoc rs k v) k v' = updateAssoc rs k v' := by
  induction rs with
  | nil => simp [updateAssoc]
  | cons kv rest ih =>
    rcases kv with ⟨k', w⟩
    by_cases h : k' = k
    · subst h
      simp [updateAssoc]
    · simp [updateAssoc, h, ih]

/-- C8: registering a second route under the same normalized key makes
the router behave on every dispatched request exactly like a router
that only ever saw the new handler sequence — the old handlers are
gone. -/
theorem add_same_key_overwrites (r : Router) (m p : String) (hsOld : List Handler)
    (m2 p2 : String) (hsNew : List Handler) (req : Request)
    (hk : routeKey m2 p2 = routeKey m p) :
    ((r.add m p hsOld).add m2 p2 hsNew).serveReq req
      = (r.add m2 p2 hsNew).serveReq req := by
  have hre : (r.add m p hsOld).add m2 p2 hsNew = r.add m2 p2 hsNew := by
    simp only [Router.add, hk, updateAssoc_self_overwrite]
  rw [hre]

/-- C8 witness: re-registering `get /items` with a new handler makes
dispatch behave like a router that only registered the new handler. -/
theorem add_same_key_overwrites_witness :
    ((NewRouter.add "get" "/items" [setA]).add "get" "/items" [setB]).serveReq req0
      = (NewRouter.add "get" "/items" [setB]).serveReq req0 :=
  add_same_key_overwrites NewRouter "get" "/items" [setA] "get" "/items" [setB] req0 rfl

/-- C9: a route registered with zero handlers dispatches exactly like a
missing route: both run the router's single not-found handler as a
one-handler chain through the executor. -/
theorem zero_handler_route_equals_unregistered (r : Router) (req : Request)
    (m p : String)
    (hk : routeKey req.httpMethod req.resource = routeKey m p)
    (hnone : r.routes.lookup (routeKey req.httpMethod req.resource) = none) :
    (r.add m p []).serveReq req
        = execHandlerFuncs defaultResponse ({ request := req, response := none })
            [r.notFoundHandler]
      ∧ r.serveReq req
        = execHandlerFuncs defaultResponse ({ request := req, response := none })
            [r.notFoundHandler] := by
  constructor
  · unfold Router.serveReq
    simp only [Router.add, hk, lookup_updateAssoc_self, List.isEmpty_nil, if_pos]
  · unfold Router.serveReq
    rw [hnone]

/-- C9 witness: on a fresh router, registering `get /items` with zero
handlers and dispatching `get /items` runs the not-found chain, the
same as dispatching against the empty router. -/
theorem zero_handler_route_equals_unregistered_witness :
    (NewRouter.add "get" "/items" []).serveReq req0
        = execHandlerFuncs defaultResponse ({ request := req0, response := none })
            [NewRouter.notFoundHandler]
      ∧ NewRouter.serveReq req0
        = execHandlerFuncs defaultResponse ({ request := req0, response := none })
            [NewRouter.notFoundHandler] :=
  zero_handler_route_equals_unregistered NewRouter req0 "get" "/items" rfl rfl

/-- A freshly built context (response still nil) trivially satisfies
the header invariant. -/
theorem ctxHeadersOk_fresh (req : Request) :
    CtxHeadersOk ({ request := req, response := none }) := by
  intro r hr
  exact Option.noConfusion hr

/-- Any handler that installs its response through `Context.status`
keeps the header invariant: the stored header map is always present. -/
theorem status_preservesHeaders (st : Int) (body : JValue)
    (hdrs : List (String × String)) :
    PreservesHeaders (fun c => c.status st body hdrs) := by
  intro c _ r hr
  simp only [Context.status] at hr
  rw [← Option.some.inj hr]
  rfl

/-- The default not-found handler keeps the header invariant. -/
theorem notFoundHandler_preservesHeaders : PreservesHeaders notFoundHandler :=
  status_preservesHeaders statusNotFound (JValue.str "") EmptyHeaders

/-- The `setA` fixture keeps the header invariant. -/
theorem setA_preservesHeaders : PreservesHeaders setA :=
  status_preservesHeaders 200 (JValue.str "a") EmptyHeaders

/-- The executor preserves the header invariant: starting from a
response with present headers and a context satisfying the invariant,
every chain of invariant-keeping handlers produces a response with
present headers. -/
theorem exec_headers_present (hs : List Handler) :
    ∀ (resp : Response) (ctx : Context),
      resp.headers.isSome = true → CtxHeadersOk ctx →
      (∀ h ∈ hs, PreservesHeaders h) →
      (execHandlerFuncs resp ctx hs).headers.isSome = true := by
  induction hs with
  | nil =>
    intro resp ctx h1 _ _
    exact h1
  | cons h t ih =>
    intro resp ctx h1 hc hh
    rcases hhc : h ctx with ⟨ctx', err⟩
    have hc' : CtxHeadersOk ctx' := by
      have hp := hh h (List.mem_cons_self _ _) ctx hc
      rw [hhc] at hp
      exact hp
    have hh' : ∀ h' ∈ t, PreservesHeaders h' :=
      fun h' hm => hh h' (List.mem_cons_of_mem _ hm)
    cases err with
    | some e =>
      cases e with
      | httpError code msg => simp [execHandlerFuncs, hhc]
      | otherError msg => simp [execHandlerFuncs, hhc]
    | none =>
      simp only [execHandlerFuncs, hhc]
      cases hr : ctx'.response with
      | some r =>
        show (execHandlerFuncs r ctx' t).headers.isSome = true
        exact ih r ctx' (hc' r hr) hc' hh'
      | none =>
        show (execHandlerFuncs resp ctx' t).headers.isSome = true
        exact ih resp ctx' h1 hc' hh'

/-- C10: for every response produced by any path through the core —
envelope parse failure, HTTPError translation, internal-error
translation, handler-set responses, the no-content default, and the
not-found fallback — the headers field is a present (possibly empty,
never nil) map, provided every installed handler keeps the header
invariant, as every handler built on the exported Go API does. -/
theorem every_response_headers_present (r : Router) (event : Option Request)
    (hs : List Handler)
    (hhs : ∀ h ∈ hs, PreservesHeaders h)
    (hnf : PreservesHeaders r.notFoundHandler)
    (hrt : ∀ k rt, r.routes.lookup k = some rt →
      ∀ h ∈ rt.handlerFuncs, PreservesHeaders h) :
    (handleEvent event hs).headers.isSome = true
      ∧ (r.serveEvent event).headers.isSome = true := by
  have hone : ∀ h ∈ [r.notFoundHandler], PreservesHeaders h := by
    intro h hm
    rcases List.mem_cons.mp hm with rfl | hm
    · exact hnf
    · exact absurd hm (List.not_mem_nil _)
  constructor
  · cases event with
    | none => rfl
    | some req =>
      exact exec_headers_present hs defaultResponse _ rfl (ctxHeadersOk_fresh req) hhs
  · cases event with
    | none => rfl
    | some req =>
      show (r.serveReq req).headers.isSome = true
      unfold Router.serveReq
      cases hl : r.routes.lookup (routeKey req.httpMethod req.resource) with
      | none =>
        exact exec_headers_present [r.notFoundHandler] defaultResponse _ rfl
          (ctxHeadersOk_fresh req) hone
      | some rt =>
        by_cases he : rt.handlerFuncs.isEmpty
        · simp only [he, if_pos]
          exact exec_headers_present [r.notFoundHandler] defaultResponse _ rfl
            (ctxHeadersOk_fresh req) hone
        · simp only [he, if_neg]
          exact exec_headers_present rt.handlerFuncs defaultResponse _ rfl
            (ctxHeadersOk_fresh req) (hrt _ rt hl)

/-- C10 witness: a router with one registered handler chain, serving a
parsed request, and the plain executor entrypoint both produce a
response whose headers map is present. -/
theorem every_response_headers_present_witness :
    (handleEvent (some req0) [setA]).headers.isSome = true
      ∧ ((NewRouter.add "get" "/items" [setA]).serveEvent (some req0)).headers.isSome
          = true :=
  every_response_headers_present (NewRouter.add "get" "/items" [setA]) (some req0)
    [setA]
    (by
      intro h hm
      rcases List.mem_cons.mp hm with rfl | hm
      · exact setA_preservesHeaders
      · exact absurd hm (List.not_mem_nil _))
    notFoundHandler_preservesHeaders
    (by
      intro k rt hl h hm
      have hroutes : (NewRouter.add "get" "/items" [setA]).routes
          = [("get:/items", ({ httpMethod := "get", resourcePath := "/items",
                               handlerFuncs := [setA] } : Route))] := rfl
      rw [hroutes] at hl
      cases hbk : (k == "get:/items") with
      | false =>
        simp only [List.lookup, hbk] at hl
        exact Option.noConfusion hl
      | true =>
        simp only [List.lookup, hbk] at hl
        have heq : rt = ({ httpMethod := "get", resourcePath := "/items",
                           handlerFuncs := [setA] } : Route) :=
          (Option.some.inj hl).symm
        rw [heq] at hm
        rcases List.mem_cons.mp hm with rfl | hm2
        · exact setA_preservesHeaders
        · exact absurd hm2 (List.not_mem_nil _))
